import Mathlib

/-!
Shallow embedding of `src/rcon.go` (package rcon): the Source RCON client.
Byte strings are `List Nat` with entries below 256; Go `int32` values are
`Int` with explicit two's-complement wrapping at word size 2^32.
The TCP transport is modelled deterministically: `input` is the byte stream
the connection will deliver to reads, `wcap` the number of bytes a write
can place (`none` = write error), and `randBytes` the bytes the crypto
random source yields.
-/

namespace Rcon

/-- Size of Packet's padding (src/rcon.go line 16). -/
def packetPaddingSize : Int := 2

/-- Size of Packet's header: id + type (src/rcon.go line 17). -/
def packetHeaderSize : Int := 8

/-- SERVERDATA_EXECCOMMAND (src/rcon.go line 27). -/
def exec : Int := 2

/-- SERVERDATA_AUTH (src/rcon.go line 28). -/
def auth : Int := 3

/-- SERVERDATA_AUTH_RESPONSE (src/rcon.go line 29). -/
def authResponse : Int := 2

/-- SERVERDATA_RESPONSE_VALUE (src/rcon.go line 30). -/
def responseValue : Int := 0

/-- The package error values (src/rcon.go lines 34-40), plus `transport`
for errors surfaced unmodified from the connection or its io helpers. -/
inductive RconError where
  | invalidWrite
  | invalidRead
  | invalidChallenge
  | unauthorizedRequest
  | failedAuthorization
  | transport
  deriving DecidableEq

/-- The packet header (src/rcon.go lines 49-53): size, challenge, headerType,
each a Go int32. -/
structure header where
  size : Int
  challenge : Int
  headerType : Int
  deriving DecidableEq

/-- A Packet (src/rcon.go lines 55-58); the body is its byte string. -/
structure Packet where
  Header : header
  Body : List Nat
  deriving DecidableEq

/-- The Client (src/rcon.go lines 42-47); the connection itself is modelled
outside the structure, as explicit stream arguments to the operations. -/
structure Client where
  Host : String
  Port : Int
  authorized : Bool
  deriving DecidableEq

/-- Wrap an integer into Go int32 range, as a Go `int32(...)` conversion does
(two's complement, word size 2^32). -/
def toInt32 (i : Int) : Int :=
  if i % 4294967296 < 2147483648 then i % 4294967296
  else i % 4294967296 - 4294967296

/-- The four bytes binary.Write produces for an int32, little-endian
(two's complement). -/
def encodeInt32LE (i : Int) : List Nat :=
  [(i % 4294967296).toNat % 256,
   (i % 4294967296).toNat / 256 % 256,
   (i % 4294967296).toNat / 65536 % 256,
   (i % 4294967296).toNat / 16777216 % 256]

/-- The int32 binary.Read yields from four little-endian bytes
(signed, two's complement). -/
def decodeInt32LE (a b c d : Nat) : Int :=
  if a + 256 * b + 65536 * c + 16777216 * d < 2147483648 then
    ((a + 256 * b + 65536 * c + 16777216 * d : Nat) : Int)
  else
    ((a + 256 * b + 65536 * c + 16777216 * d : Nat) : Int) - 4294967296

/-- One `binary.Read(conn, LittleEndian, &field)` of an int32 in send:
consumes four bytes; with fewer than four remaining the read fails
(io error) and the stream is exhausted. -/
def readInt32 (s : List Nat) : Option (Int × List Nat) :=
  match s with
  | a :: b :: c :: d :: rest => some (decodeInt32LE a b c d, rest)
  | _ => none

/-- The three consecutive header-field reads of send
(src/rcon.go lines 136-142 and 149-155): size, challenge, headerType. -/
def readHeader (s : List Nat) : Option (header × List Nat) :=
  match readInt32 s with
  | none => none
  | some (sz, s1) =>
    match readInt32 s1 with
    | none => none
    | some (ch, s2) =>
      match readInt32 s2 with
      | none => none
      | some (ty, s3) => some (⟨sz, ch, ty⟩, s3)

/-- newPacket (src/rcon.go lines 98-101): the size field is
`int32(len(body) + 10)`. -/
def newPacket (challenge typ : Int) (body : List Nat) : Packet :=
  { Header := { size := toInt32 ((body.length : Int) + (packetHeaderSize + packetPaddingSize)),
                challenge := challenge, headerType := typ },
    Body := body }

/-- Packet.compile (src/rcon.go lines 185-202): size, challenge, headerType
little-endian, the body bytes, then the two zero padding bytes.
binary.Write into a bytes.Buffer cannot fail, so the Go error result is
always nil and compile is total. -/
def Packet.compile (p : Packet) : List Nat :=
  encodeInt32LE p.Header.size ++ encodeInt32LE p.Header.challenge ++
    encodeInt32LE p.Header.headerType ++ p.Body ++ [0, 0]

/-- strings.TrimRight(body, terminationSequence) (src/rcon.go line 176):
strip every trailing NUL byte. -/
def trimRightNul (s : List Nat) : List Nat :=
  (s.reverse.dropWhile (fun b => b == 0)).reverse

/-- The wire image of a header as a compliant server sends it: the same
twelve bytes compile places before the body. -/
def encHeader (h : header) : List Nat :=
  encodeInt32LE h.size ++ encodeInt32LE h.challenge ++ encodeInt32LE h.headerType

/-- An integer representable as a Go int32. -/
def int32Range (i : Int) : Prop := -2147483648 ≤ i ∧ i < 2147483648

instance (i : Int) : Decidable (int32Range i) := by
  unfold int32Range
  infer_instance

theorem toNat_emod_lt (i : Int) : (i % 4294967296).toNat < 4294967296 := by
  have h1 : i % 4294967296 < 4294967296 :=
    Int.emod_lt_of_pos i (by norm_num)
  omega

theorem toNat_emod_cast (i : Int) : ((i % 4294967296).toNat : Int) = i % 4294967296 := by
  have h0 : (0 : Int) ≤ i % 4294967296 := Int.emod_nonneg i (by norm_num)
  exact Int.toNat_of_nonneg h0

/-- Recomposing a number below 2^32 from its four little-endian base-256
digits gives it back. -/
theorem recompose_base256 (n : Nat) (h : n < 4294967296) :
    n % 256 + 256 * (n / 256 % 256) + 65536 * (n / 65536 % 256) +
      16777216 * (n / 16777216 % 256) = n := by
  omega

/-- Reading an int32 from its own encoding yields the wrapped value and
leaves the rest of the stream untouched. -/
theorem readInt32_encode (i : Int) (r : List Nat) :
    readInt32 (encodeInt32LE i ++ r) = some (toInt32 i, r) := by
  have hlt : (i % 4294967296).toNat < 4294967296 := toNat_emod_lt i
  have hcast : ((i % 4294967296).toNat : Int) = i % 4294967296 := toNat_emod_cast i
  have hrec := recompose_base256 (i % 4294967296).toNat hlt
  simp only [encodeInt32LE, List.cons_append, List.nil_append, readInt32,
    decodeInt32LE, toInt32, Option.some.injEq, Prod.mk.injEq]
  refine ⟨?_, trivial⟩
  rw [hrec, hcast]
  split
  · rw [if_pos]
    omega
  · rw [if_neg]
    omega

/-- Reading a header from its wire image yields the header with each field
wrapped to int32, the rest of the stream untouched. -/
theorem readHeader_encode (h : header) (r : List Nat) :
    readHeader (encHeader h ++ r) =
      some (⟨toInt32 h.size, toInt32 h.challenge, toInt32 h.headerType⟩, r) := by
  simp only [encHeader, List.append_assoc, readHeader, readInt32_encode]

/-- Wrapping an in-range integer is the identity. -/
theorem toInt32_of_range (i : Int) (h : int32Range i) : toInt32 i = i := by
  rcases h with ⟨h1, h2⟩
  unfold toInt32
  omega

/-- Reading a header whose fields are in int32 range from its wire image
yields it unchanged. -/
theorem readHeader_encode_range (h : header) (r : List Nat)
    (hs : int32Range h.size) (hc : int32Range h.challenge)
    (ht : int32Range h.headerType) :
    readHeader (encHeader h ++ r) = some (h, r) := by
  rw [readHeader_encode, toInt32_of_range _ hs, toInt32_of_range _ hc,
    toInt32_of_range _ ht]

/-- Encoding is blind to wrapping. -/
theorem encodeInt32LE_toInt32 (i : Int) :
    encodeInt32LE (toInt32 i) = encodeInt32LE i := by
  have : toInt32 i % 4294967296 = i % 4294967296 := by
    unfold toInt32
    split <;> omega
  simp only [encodeInt32LE, this]

/-- Stripping trailing NULs ignores the two padding bytes. -/
theorem trimRightNul_append_pad (b : List Nat) :
    trimRightNul (b ++ [0, 0]) = trimRightNul b := by
  simp [trimRightNul, List.reverse_append, List.dropWhile]

/-- A byte string whose last byte is not NUL is unchanged by the strip. -/
theorem trimRightNul_of_last_ne (b : List Nat) (hb : b.getLast? ≠ some 0) :
    trimRightNul b = b := by
  unfold trimRightNul
  rw [← List.head?_reverse] at hb
  cases hrev : b.reverse with
  | nil =>
    have hbnil : b = [] := by simpa using congrArg List.reverse hrev
    simp [hbnil]
  | cons x xs =>
    rw [hrev] at hb
    simp only [List.head?] at hb
    have hx : (x == 0) = false := by
      simp only [beq_eq_false_iff_ne, ne_eq]
      intro hx0
      exact hb (by rw [hx0])
    have hback : (x :: xs).reverse = b := by
      have := congrArg List.reverse hrev
      simpa using this.symm
    rw [List.dropWhile_cons, hx]
    simpa using hback

/-- One `conn.Read` into a buffer of k bytes on the deterministic stream:
a TCP read delivers what is available, so it returns `take k`, the count
`min k s.length`, and the rest `drop k`. -/
def connRead (k : Nat) (s : List Nat) : List Nat × Nat × List Nat :=
  (s.take k, min k s.length, s.drop k)

/-- Challenge generation in send (src/rcon.go lines 114-116):
`binary.Read(rand.Reader, LittleEndian, &challenge)` with the error
discarded; when the random source yields fewer than four bytes the read
fails and `challenge` keeps its zero value 0. -/
def readChallenge (randBytes : List Nat) : Int :=
  match randBytes with
  | a :: b :: c :: d :: _ => decodeInt32LE a b c d
  | _ => 0

/-- The outcome of one send: the two Go named results `response` and `err`,
plus the bytes actually written to the connection and the bytes of the
input stream not consumed. -/
structure SendResult where
  response : Option Packet
  err : Option RconError
  written : List Nat
  rest : List Nat
  deriving DecidableEq

/-- The tail of send once the evaluated response header is fixed
(src/rcon.go lines 158-178): challenge validation, body read of
`size - 8` bytes, invalid-read check, NUL strip, response assembly.
Returns `none` where Go panics: `make([]byte, h.size - 8)` with
`h.size < 8`. An empty stream with bytes still expected is an io error
from the connection (surfaced unmodified); a nonempty short read trips
the `n != len(body)` check. -/
def sendFinish (pk : Packet) (payload : List Nat) (h : header)
    (s : List Nat) : Option SendResult :=
  if h.challenge ≠ pk.Header.challenge then
    some ⟨none, some .invalidChallenge, payload, s⟩
  else if h.size < packetHeaderSize then
    none
  else if s.length = 0 ∧ (h.size - packetHeaderSize).toNat ≠ 0 then
    some ⟨none, some .transport, payload, []⟩
  else if (connRead (h.size - packetHeaderSize).toNat s).2.1 ≠
      (h.size - packetHeaderSize).toNat then
    some ⟨none, some .invalidRead, payload,
      (connRead (h.size - packetHeaderSize).toNat s).2.2⟩
  else
    some ⟨some { Header := h,
                 Body := trimRightNul (connRead (h.size - packetHeaderSize).toNat s).1 },
          none, payload, (connRead (h.size - packetHeaderSize).toNat s).2.2⟩

/-- Client.send (src/rcon.go lines 108-179) over the deterministic
transport. `randBytes` are the bytes the crypto random source yields,
`wcap` is the write capacity of the connection (`none` = write error,
`some m` = at most m bytes accepted), `input` the byte stream the
connection delivers to reads. The overall `none` models a Go runtime
panic (make with a negative length). -/
def send (authorized : Bool) (randBytes : List Nat) (wcap : Option Nat)
    (typ : Int) (command : List Nat) (input : List Nat) : Option SendResult :=
  if typ ≠ auth ∧ authorized = false then
    some ⟨none, some .unauthorizedRequest, [], input⟩
  else
    let challenge := readChallenge randBytes
    let packet := newPacket challenge typ command
    let payload := packet.compile
    match wcap with
    | none => some ⟨none, some .transport, [], input⟩
    | some m =>
      if m < payload.length then
        some ⟨none, some .invalidWrite, payload.take m, input⟩
      else
        match readHeader input with
        | none => some ⟨none, some .transport, payload, []⟩
        | some (h1, s1) =>
          if packet.Header.headerType = auth ∧ h1.headerType = responseValue then
            if h1.size < packetHeaderSize then
              none
            else
              match readHeader (connRead (h1.size - packetHeaderSize).toNat s1).2.2 with
              | none => some ⟨none, some .transport, payload, []⟩
              | some (h2, s3) => sendFinish packet payload h2 s3
          else
            sendFinish packet payload h1 s1

/-- Decode of one packet from a byte stream: the header reads
(src/rcon.go lines 134-142) followed by the body read and NUL strip
(lines 163-176) of send; the session-level id validation is a separate
step. `none` covers a failed header read, a failed or short body read,
and the panic on `size < 8`. -/
def decodePacket (s : List Nat) : Option Packet :=
  match readHeader s with
  | none => none
  | some (h, s1) =>
    if h.size < packetHeaderSize then none
    else if (connRead (h.size - packetHeaderSize).toNat s1).2.1 ≠
        (h.size - packetHeaderSize).toNat then none
    else some { Header := h,
                Body := trimRightNul (connRead (h.size - packetHeaderSize).toNat s1).1 }

/-- NewClient (src/rcon.go lines 63-66): constructs the client un-connected;
the Go error result is always nil. The authorized field starts at its
zero value false. -/
def NewClient (host : String) (port : Int) : Client :=
  { Host := host, Port := port, authorized := false }

/-- Client.Execute (src/rcon.go lines 93-95): send with the exec type and
the command; the client state is returned unchanged. -/
def Execute (c : Client) (randBytes : List Nat) (wcap : Option Nat)
    (command : List Nat) (input : List Nat) : Option (Client × SendResult) :=
  (send c.authorized randBytes wcap exec command input).map (fun r => (c, r))

/-- Client.Authorize (src/rcon.go lines 76-88): send with the auth type and
the password; on a nil error and an authResponse header, set authorized;
otherwise return the failed-authorization error with a nil response.
The inner `none` models the nil dereference Go would hit if send returned
a nil response together with a nil error (provably unreachable). -/
def Authorize (c : Client) (randBytes : List Nat) (wcap : Option Nat)
    (password : List Nat) (input : List Nat) : Option (Client × SendResult) :=
  match send c.authorized randBytes wcap auth password input with
  | none => none
  | some r =>
    match r.err with
    | some _ => some (c, r)
    | none =>
      match r.response with
      | none => none
      | some p =>
        if p.Header.headerType = authResponse then
          some ({ c with authorized := true }, r)
        else
          some (c, { r with err := some .failedAuthorization, response := none })

/-- A session: the client together with the state of the transport it owns.
`closes` counts how many times the currently held transport has been
closed. Modelled from the spec: src/rcon.go declares no Disconnect and no
Close call (only the tests drive them), so the transport lifecycle is
taken from the spec's words. -/
structure Session where
  client : Client
  connected : Bool
  closes : Nat
  deriving DecidableEq

/-- One Authorize or Execute call together with the transport inputs it
observes. -/
inductive Op where
  | authorize (randBytes : List Nat) (wcap : Option Nat)
      (password : List Nat) (input : List Nat)
  | execute (randBytes : List Nat) (wcap : Option Nat)
      (command : List Nat) (input : List Nat)

/-- Modelled from the spec: "Connect() — opens a TCP connection to
host:port". On success the session holds a fresh open transport that has
not been closed. -/
def Session.Connect (s : Session) : Session :=
  { s with connected := true, closes := 0 }

/-- Modelled from the spec: "Disconnect() — releases the transport; safe to
defer immediately after a successful Connect". src/rcon.go does not define
Disconnect (only the tests call it), so it is modelled as the single Close
of the held transport. -/
def Session.Disconnect (s : Session) : Session :=
  { s with connected := false, closes := s.closes + 1 }

/-- Run one Authorize or Execute call on the session. These calls read and
write the transport but never close it, whether they succeed or fail
(src/rcon.go lines 76-95 and 108-179 contain no Close). A run that would
panic leaves the client state as it was. -/
def Session.runOp (s : Session) (op : Op) : Session :=
  match op with
  | .authorize rb w pw i =>
    match Authorize s.client rb w pw i with
    | some (c2, _) => { s with client := c2 }
    | none => s
  | .execute rb w cmd i =>
    match Execute s.client rb w cmd i with
    | some (c2, _) => { s with client := c2 }
    | none => s

/-- Run a sequence of Authorize and Execute calls on the session. -/
def Session.runOps (s : Session) (ops : List Op) : Session :=
  ops.foldl Session.runOp s

/-- Compiling a fresh packet lays out the three wrapped int32 fields, the
body, and the two padding bytes. -/
theorem compile_newPacket (c t : Int) (B : List Nat) :
    (newPacket c t B).compile =
      encodeInt32LE ((B.length : Int) + 10) ++ encodeInt32LE c ++
        encodeInt32LE t ++ B ++ [0, 0] := by
  simp only [newPacket, Packet.compile, packetHeaderSize, packetPaddingSize,
    encodeInt32LE_toInt32]
  norm_num

/-- The compiled payload is fourteen bytes longer than the body. -/
theorem compile_length (p : Packet) : p.compile.length = p.Body.length + 14 := by
  simp only [Packet.compile, encodeInt32LE, List.length_append, List.length_cons,
    List.length_nil]
  omega

/-- The body of a fresh packet is the given byte string. -/
theorem newPacket_Body (c t : Int) (B : List Nat) : (newPacket c t B).Body = B := rfl

/-- The challenge field of a fresh packet is the given challenge. -/
theorem newPacket_challenge (c t : Int) (B : List Nat) :
    (newPacket c t B).Header.challenge = c := rfl

/-- The type field of a fresh packet is the given type. -/
theorem newPacket_headerType (c t : Int) (B : List Nat) :
    (newPacket c t B).Header.headerType = t := rfl

/-- When the random source yields fewer than four bytes, the challenge
keeps its zero value. -/
theorem readChallenge_short (rb : List Nat) (h : rb.length < 4) :
    readChallenge rb = 0 := by
  match rb with
  | [] => rfl
  | [_] => rfl
  | [_, _] => rfl
  | [_, _, _] => rfl
  | _ :: _ :: _ :: _ :: _ => exact absurd h (by simp)

/-- An unauthorized non-auth send fails before any transport activity. -/
theorem send_guard (rb : List Nat) (w : Option Nat) (typ : Int)
    (cmd input : List Nat) (htyp : typ ≠ auth) :
    send false rb w typ cmd input =
      some ⟨none, some .unauthorizedRequest, [], input⟩ := by
  unfold send
  rw [if_pos ⟨htyp, rfl⟩]

/-- Evaluation of send past the guard and the (successful, full) write:
the remaining behaviour is the header dispatch. -/
theorem send_write_ok (a : Bool) (rb : List Nat) (m : Nat) (typ : Int)
    (cmd input : List Nat) (hga : typ = auth ∨ a = true)
    (hm : cmd.length + 14 ≤ m) :
    send a rb (some m) typ cmd input =
      (match readHeader input with
       | none => some ⟨none, some .transport,
           (newPacket (readChallenge rb) typ cmd).compile, []⟩
       | some (h1, s1) =>
         if typ = auth ∧ h1.headerType = responseValue then
           if h1.size < packetHeaderSize then
             none
           else
             match readHeader (connRead (h1.size - packetHeaderSize).toNat s1).2.2 with
             | none => some ⟨none, some .transport,
                 (newPacket (readChallenge rb) typ cmd).compile, []⟩
             | some (h2, s3) => sendFinish (newPacket (readChallenge rb) typ cmd)
                 ((newPacket (readChallenge rb) typ cmd).compile) h2 s3
         else
           sendFinish (newPacket (readChallenge rb) typ cmd)
             ((newPacket (readChallenge rb) typ cmd).compile) h1 s1) := by
  have hng : ¬(typ ≠ auth ∧ a = false) := by
    rcases hga with h | h
    · exact fun hc => hc.1 h
    · intro hc
      rw [h] at hc
      exact absurd hc.2 (by simp)
  have hlen : (newPacket (readChallenge rb) typ cmd).compile.length =
      cmd.length + 14 := by
    rw [compile_length, newPacket_Body]
  unfold send
  rw [if_neg hng]
  simp only [hlen, newPacket_headerType]
  rw [if_neg (by omega : ¬ m < cmd.length + 14)]

/-- Every outcome sendFinish can return carries either a response with no
error or an error with no response. -/
theorem sendFinish_some_cases (pk : Packet) (payload : List Nat) (h : header)
    (s : List Nat) (r : SendResult) (hr : sendFinish pk payload h s = some r) :
    (r.err = none ∧ ∃ p, r.response = some p) ∨
      (r.response = none ∧ ∃ e, r.err = some e) := by
  unfold sendFinish at hr
  split at hr
  · cases hr
    exact Or.inr ⟨rfl, _, rfl⟩
  · split at hr
    · exact absurd hr (by simp)
    · split at hr
      · cases hr
        exact Or.inr ⟨rfl, _, rfl⟩
      · split at hr
        · cases hr
          exact Or.inr ⟨rfl, _, rfl⟩
        · cases hr
          exact Or.inl ⟨rfl, _, rfl⟩

/-- Every outcome send can return carries either a response with no error
or an error with no response: no partial success. -/
theorem send_some_cases (a : Bool) (rb : List Nat) (w : Option Nat)
    (typ : Int) (cmd input : List Nat) (r : SendResult)
    (hr : send a rb w typ cmd input = some r) :
    (r.err = none ∧ ∃ p, r.response = some p) ∨
      (r.response = none ∧ ∃ e, r.err = some e) := by
  simp only [send] at hr
  split at hr
  · cases hr
    exact Or.inr ⟨rfl, _, rfl⟩
  · split at hr
    · cases hr
      exact Or.inr ⟨rfl, _, rfl⟩
    · split at hr
      · cases hr
        exact Or.inr ⟨rfl, _, rfl⟩
      · split at hr
        · cases hr
          exact Or.inr ⟨rfl, _, rfl⟩
        · split at hr
          · split at hr
            · exact absurd hr (by simp)
            · split at hr
              · cases hr
                exact Or.inr ⟨rfl, _, rfl⟩
              · exact sendFinish_some_cases _ _ _ _ _ hr
          · exact sendFinish_some_cases _ _ _ _ _ hr

/-- Case analysis of Authorize in terms of send: success sets the flag,
every failure leaves the client untouched. -/
theorem Authorize_cases (c : Client) (rb : List Nat) (w : Option Nat)
    (pw input : List Nat) (c2 : Client) (r : SendResult)
    (hr : Authorize c rb w pw input = some (c2, r)) :
    (r.err = none ∧ c2 = { c with authorized := true } ∧
      ∃ p, r.response = some p ∧ p.Header.headerType = authResponse) ∨
      ((∃ e, r.err = some e) ∧ r.response = none ∧ c2 = c) := by
  unfold Authorize at hr
  split at hr
  · exact absurd hr (by simp)
  · rename_i r0 hsend
    split at hr
    · rename_i e he
      cases hr
      rcases send_some_cases _ _ _ _ _ _ _ hsend with ⟨he0, _⟩ | ⟨hp0, _⟩
      · rw [he] at he0
        exact absurd he0 (by simp)
      · exact Or.inr ⟨⟨e, he⟩, hp0, rfl⟩
    · rename_i he
      split at hr
      · exact absurd hr (by simp)
      · rename_i p hp
        split at hr
        · rename_i hty
          cases hr
          exact Or.inl ⟨he, rfl, p, hp, hty⟩
        · cases hr
          exact Or.inr ⟨⟨_, rfl⟩, rfl, rfl⟩

/-- Dropping exactly the discarded bytes exposes the rest of the stream. -/
theorem connRead_drop_exact (junk rest : List Nat) :
    (connRead junk.length (junk ++ rest)).2.2 = rest := by
  simp [connRead]

/-- Whatever sendFinish returns records the full payload as written. -/
theorem sendFinish_written (pk : Packet) (payload : List Nat) (h : header)
    (s : List Nat) (r : SendResult) (hr : sendFinish pk payload h s = some r) :
    r.written = payload := by
  unfold sendFinish at hr
  split at hr
  · cases hr
    rfl
  · split at hr
    · exact absurd hr (by simp)
    · split at hr
      · cases hr
        rfl
      · split at hr
        · cases hr
          rfl
        · cases hr
          rfl

/-- Once past the guard with a sufficient write capacity, every outcome of
send records the full compiled request as written. -/
theorem send_written (a : Bool) (rb : List Nat) (m : Nat) (typ : Int)
    (cmd input : List Nat) (r : SendResult) (hga : typ = auth ∨ a = true)
    (hm : cmd.length + 14 ≤ m)
    (hr : send a rb (some m) typ cmd input = some r) :
    r.written = (newPacket (readChallenge rb) typ cmd).compile := by
  rw [send_write_ok a rb m typ cmd input hga hm] at hr
  split at hr
  · cases hr
    rfl
  · split at hr
    · split at hr
      · exact absurd hr (by simp)
      · split at hr
        · cases hr
          rfl
        · exact sendFinish_written _ _ _ _ _ hr
    · exact sendFinish_written _ _ _ _ _ hr

/-- send depends on the random source only through the challenge read
from it. -/
theorem send_rand_congr (a : Bool) (rb1 rb2 : List Nat) (w : Option Nat)
    (typ : Int) (cmd input : List Nat)
    (h : readChallenge rb1 = readChallenge rb2) :
    send a rb1 w typ cmd input = send a rb2 w typ cmd input := by
  unfold send
  rw [h]

/-- A single Authorize or Execute call never closes the transport and never
changes the connected state, on success and on failure alike. -/
theorem runOp_frame (s : Session) (op : Op) :
    (Session.runOp s op).closes = s.closes ∧
      (Session.runOp s op).connected = s.connected := by
  cases op with
  | authorize rb w pw i =>
    simp only [Session.runOp]
    split <;> exact ⟨rfl, rfl⟩
  | execute rb w cmd i =>
    simp only [Session.runOp]
    split <;> exact ⟨rfl, rfl⟩

/-- A whole sequence of Authorize and Execute calls never closes the
transport and never changes the connected state. -/
theorem runOps_frame (ops : List Op) : ∀ s : Session,
    (Session.runOps s ops).closes = s.closes ∧
      (Session.runOps s ops).connected = s.connected := by
  induction ops with
  | nil => exact fun s => ⟨rfl, rfl⟩
  | cons op ops ih =>
    intro s
    have h1 := runOp_frame s op
    have h2 := ih (Session.runOp s op)
    simp only [Session.runOps, List.foldl] at h2 ⊢
    exact ⟨h2.1.trans h1.1, h2.2.trans h1.2⟩

/-- C1 fails as stated: for the one-byte body [0] (the NUL string "\x00",
of byte length 1), encoding the packet built for it and decoding the bytes
yields the empty body, not [0] — the decoder strips every trailing NUL,
including bytes that belong to the body. The size field does decode to
1 + 10 = 11. -/
theorem C1_counterexample :
    decodePacket ((newPacket 0 exec [0]).compile) =
      some ⟨⟨11, 0, 2⟩, []⟩ ∧ ([] : List Nat) ≠ [0] := by
  constructor
  · decide
  · decide

/-- C1 (amended): for every body B of byte length N whose last byte is not
NUL (in particular any body not ending in 0x00, the empty body included)
and with N + 10 inside int32 range, encoding the packet built for B and
decoding that byte sequence yields a packet whose body equals B and whose
decoded size field equals N + 10. -/
theorem C1_round_trip (c t : Int) (B : List Nat)
    (hlen : B.length + 10 < 2147483648)
    (hlast : B.getLast? ≠ some 0) :
    ∃ p, decodePacket ((newPacket c t B).compile) = some p ∧
      p.Body = B ∧ p.Header.size = (B.length : Int) + 10 := by
  have hsz : toInt32 ((B.length : Int) + 10) = (B.length : Int) + 10 :=
    toInt32_of_range _ ⟨by omega, by omega⟩
  have hrh : readHeader ((newPacket c t B).compile) =
      some (⟨toInt32 ((B.length : Int) + 10), toInt32 c, toInt32 t⟩, B ++ [0, 0]) := by
    rw [compile_newPacket]
    have h := readHeader_encode ⟨(B.length : Int) + 10, c, t⟩ (B ++ [0, 0])
    simp only [encHeader, List.append_assoc] at h
    simpa [List.append_assoc] using h
  have hk : (((B.length : Int) + 10) - packetHeaderSize).toNat = B.length + 2 := by
    simp only [packetHeaderSize]
    omega
  refine ⟨⟨⟨(B.length : Int) + 10, toInt32 c, toInt32 t⟩, B⟩, ?_, rfl, rfl⟩
  simp only [decodePacket, hrh, hsz]
  rw [if_neg (by simp only [packetHeaderSize]; omega)]
  rw [hk]
  have hlen2 : (B ++ [0, 0]).length = B.length + 2 := by simp
  rw [if_neg (by simp only [connRead, hlen2]; omega)]
  simp only [connRead, Option.some.injEq, Packet.mk.injEq, and_true, true_and]
  rw [List.take_of_length_le (by omega)]
  rw [trimRightNul_append_pad, trimRightNul_of_last_ne B hlast]

/-- C1 witness: the two-byte body [65, 66] (no trailing NUL) round-trips
with decoded size 12. -/
theorem C1_round_trip_witness :
    ∃ p, decodePacket ((newPacket 5 2 [65, 66]).compile) = some p ∧
      p.Body = [65, 66] ∧ p.Header.size = ((([65, 66] : List Nat).length : Int) + 10) :=
  C1_round_trip 5 2 [65, 66] (by decide) (by decide)

/-- C2: after Connect the session holds a fresh transport; a Disconnect
that follows any sequence of Authorize and Execute calls — succeeding or
failing — closes that transport exactly once, and none of those calls has
closed (or disconnected) it earlier. -/
theorem C2_disconnect_once (s : Session) (ops : List Op) :
    (Session.runOps (Session.Connect s) ops).closes = 0 ∧
    (Session.runOps (Session.Connect s) ops).connected = true ∧
    (Session.Disconnect (Session.runOps (Session.Connect s) ops)).closes = 1 := by
  have h := runOps_frame ops (Session.Connect s)
  have h1 : (Session.runOps (Session.Connect s) ops).closes = 0 :=
    h.1.trans (rfl : (Session.Connect s).closes = 0)
  refine ⟨h1, h.2.trans (rfl : (Session.Connect s).connected = true), ?_⟩
  show (Session.runOps (Session.Connect s) ops).closes + 1 = 1
  rw [h1]

/-- C3: with the authorized flag false, Execute (send with the exec type)
returns the unauthorized-request error before any transport activity: it
writes nothing and consumes nothing from the connection, for every write
capacity and every input stream. -/
theorem C3_execute_unauthorized (host : String) (port : Int) (rb : List Nat)
    (w : Option Nat) (cmd input : List Nat) :
    send false rb w exec cmd input =
      some ⟨none, some .unauthorizedRequest, [], input⟩ ∧
    Execute ⟨host, port, false⟩ rb w cmd input =
      some (⟨host, port, false⟩, ⟨none, some .unauthorizedRequest, [], input⟩) := by
  have h := send_guard rb w exec cmd input (by decide)
  refine ⟨h, ?_⟩
  show (send false rb w exec cmd input).map
      (fun r => ((⟨host, port, false⟩ : Client), r)) = _
  rw [h]
  rfl

/-- C7: compile writes, in order, the little-endian 4-byte size, id and
type fields, then the raw body bytes, then exactly two NUL bytes; and the
size field newPacket places is the body's byte length plus 10. -/
theorem C7_compile_layout (c t : Int) (B : List Nat)
    (hlen : B.length + 10 < 2147483648) :
    (newPacket c t B).compile =
      encodeInt32LE ((B.length : Int) + 10) ++ encodeInt32LE c ++
        encodeInt32LE t ++ B ++ [0, 0] ∧
    (newPacket c t B).Header.size = (B.length : Int) + 10 := by
  refine ⟨compile_newPacket c t B, ?_⟩
  simp only [newPacket]
  rw [show packetHeaderSize + packetPaddingSize = (10 : Int) from rfl]
  exact toInt32_of_range _ ⟨by omega, by omega⟩

/-- C7 witness: the one-byte body [65] compiles to the explicit layout with
size field 11. -/
theorem C7_compile_layout_witness :
    (newPacket 1 2 [65]).compile =
      encodeInt32LE ((([65] : List Nat).length : Int) + 10) ++ encodeInt32LE 1 ++
        encodeInt32LE 2 ++ [65] ++ [0, 0] ∧
    (newPacket 1 2 [65]).Header.size = ((([65] : List Nat).length : Int) + 10) :=
  C7_compile_layout 1 2 [65] (by decide)

/-- C4: the spurious-packet branch fires exactly when the request type is
auth and the first response header's type is responseValue: in that case
the size-8 junk bytes are discarded and the second header is the one
evaluated (first conjunct); for an auth request whose first header has any
other type the first header is evaluated (second conjunct); and for an
exec request the first header is always the one evaluated, whatever its
type (third conjunct). -/
theorem C4_auth_quirk (a : Bool) (rb : List Nat) (m : Nat) (cmd : List Nat)
    (h1 h2 : header) (junk t : List Nat)
    (hs1 : int32Range h1.size) (hc1 : int32Range h1.challenge)
    (ht1 : int32Range h1.headerType)
    (hs2 : int32Range h2.size) (hc2 : int32Range h2.challenge)
    (ht2 : int32Range h2.headerType)
    (hsz : packetHeaderSize ≤ h1.size)
    (hj : junk.length = (h1.size - packetHeaderSize).toNat)
    (hm : cmd.length + 14 ≤ m) :
    (h1.headerType = responseValue →
      send a rb (some m) auth cmd (encHeader h1 ++ (junk ++ (encHeader h2 ++ t))) =
        sendFinish (newPacket (readChallenge rb) auth cmd)
          ((newPacket (readChallenge rb) auth cmd).compile) h2 t) ∧
    (h1.headerType ≠ responseValue →
      send a rb (some m) auth cmd (encHeader h1 ++ (junk ++ (encHeader h2 ++ t))) =
        sendFinish (newPacket (readChallenge rb) auth cmd)
          ((newPacket (readChallenge rb) auth cmd).compile) h1
          (junk ++ (encHeader h2 ++ t))) ∧
    send true rb (some m) exec cmd (encHeader h1 ++ (junk ++ (encHeader h2 ++ t))) =
      sendFinish (newPacket (readChallenge rb) exec cmd)
        ((newPacket (readChallenge rb) exec cmd).compile) h1
        (junk ++ (encHeader h2 ++ t)) := by
  have hdrop : (connRead (h1.size - packetHeaderSize).toNat
      (junk ++ (encHeader h2 ++ t))).2.2 = encHeader h2 ++ t := by
    rw [← hj]
    exact connRead_drop_exact junk (encHeader h2 ++ t)
  refine ⟨?_, ?_, ?_⟩
  · intro hq
    rw [send_write_ok _ _ _ _ _ _ (Or.inl rfl) hm]
    simp only [readHeader_encode_range h1 _ hs1 hc1 ht1]
    rw [if_pos ⟨trivial, hq⟩]
    rw [if_neg (not_lt.mpr hsz)]
    simp only [hdrop, readHeader_encode_range h2 _ hs2 hc2 ht2]
  · intro hq
    rw [send_write_ok _ _ _ _ _ _ (Or.inl rfl) hm]
    simp only [readHeader_encode_range h1 _ hs1 hc1 ht1]
    rw [if_neg (fun hcon => hq hcon.2)]
  · rw [send_write_ok _ _ _ _ _ _ (Or.inr rfl) hm]
    simp only [readHeader_encode_range h1 _ hs1 hc1 ht1]
    rw [if_neg (fun hcon => absurd hcon.1 (by decide))]

/-- C4 witness: with a spurious header (size 12, type 0) followed by two
junk bytes and a real header, an auth send evaluates the second header;
an exec send on the same stream shape evaluates the first header. -/
theorem C4_auth_quirk_witness :
    (send false [1, 0, 0, 0] (some 15) auth [97]
        (encHeader ⟨10, 9, 0⟩ ++ ([5, 5] ++ (encHeader ⟨10, 1, 2⟩ ++ []))) =
      sendFinish (newPacket (readChallenge [1, 0, 0, 0]) auth [97])
        ((newPacket (readChallenge [1, 0, 0, 0]) auth [97]).compile) ⟨10, 1, 2⟩ []) ∧
    (send true [1, 0, 0, 0] (some 15) exec [97]
        (encHeader ⟨10, 9, 0⟩ ++ ([5, 5] ++ (encHeader ⟨10, 1, 2⟩ ++ []))) =
      sendFinish (newPacket (readChallenge [1, 0, 0, 0]) exec [97])
        ((newPacket (readChallenge [1, 0, 0, 0]) exec [97]).compile) ⟨10, 9, 0⟩
        ([5, 5] ++ (encHeader ⟨10, 1, 2⟩ ++ []))) := by
  have h := C4_auth_quirk false [1, 0, 0, 0] 15 [97] ⟨10, 9, 0⟩ ⟨10, 1, 2⟩ [5, 5] []
    (by decide) (by decide) (by decide) (by decide) (by decide) (by decide)
    (by decide) (by decide) (by decide)
  exact ⟨h.1 rfl, h.2.2⟩

/-- C5: the authorized flag starts false at NewClient, Execute never
changes the client, an Authorize that returns without error has set the
flag and its evaluated response header carried the authResponse type, any
failing Authorize leaves the client exactly as it was, and an Authorize
whose send succeeded but whose evaluated response header does not carry
the authResponse type returns precisely the failed-authorization error
with a nil response and the client unchanged — so the flag is never reset
and after a failed Authorize on an unauthorized client a subsequent
Execute still fails with the unauthorized-request error before any
write. -/
theorem C5_authorized_flag (host : String) (port : Int) (c : Client)
    (rb : List Nat) (w : Option Nat) (pw input : List Nat)
    (c2 : Client) (r : SendResult) :
    (NewClient host port).authorized = false ∧
    (Execute c rb w pw input = some (c2, r) → c2 = c) ∧
    (Authorize c rb w pw input = some (c2, r) →
      (r.err = none ∧ c2.authorized = true ∧
        ∃ p, r.response = some p ∧ p.Header.headerType = authResponse) ∨
      ((∃ e, r.err = some e) ∧ c2 = c)) ∧
    (∀ r0 p, send c.authorized rb w auth pw input = some r0 →
      r0.response = some p → p.Header.headerType ≠ authResponse →
      Authorize c rb w pw input =
        some (c, ⟨none, some .failedAuthorization, r0.written, r0.rest⟩)) ∧
    (Authorize c rb w pw input = some (c2, r) → c.authorized = true →
      c2.authorized = true) ∧
    (c.authorized = false →
      Execute c rb w pw input = some (c, ⟨none, some .unauthorizedRequest, [], input⟩)) := by
  refine ⟨rfl, ?_, ?_, ?_, ?_, ?_⟩
  · intro h
    unfold Execute at h
    cases hs : send c.authorized rb w exec pw input with
    | none =>
      rw [hs] at h
      exact absurd h (by simp)
    | some r0 =>
      rw [hs] at h
      simp only [Option.map_some'] at h
      cases h
      rfl
  · intro h
    rcases Authorize_cases c rb w pw input c2 r h with ⟨he, hc2, p, hp, hty⟩ | ⟨he, _, hc2⟩
    · refine Or.inl ⟨he, ?_, p, hp, hty⟩
      rw [hc2]
    · exact Or.inr ⟨he, hc2⟩
  · intro r0 p hsend hp hty
    have he : r0.err = none := by
      rcases send_some_cases _ _ _ _ _ _ _ hsend with ⟨he, _⟩ | ⟨hresp, _⟩
      · exact he
      · rw [hresp] at hp
        exact absurd hp (by simp)
    unfold Authorize
    rw [hsend]
    simp only [he, hp]
    rw [if_neg hty]
  · intro h hca
    rcases Authorize_cases c rb w pw input c2 r h with ⟨_, hc2, _⟩ | ⟨_, _, hc2⟩
    · rw [hc2]
    · rw [hc2]
      exact hca
  · intro hca
    unfold Execute
    rw [hca, send_guard _ _ _ _ _ (by decide)]
    rfl

/-- C5 witness: a fresh client is unauthorized; a concrete successful
Authorize (auth-response header echoing the challenge) yields a client
whose flag is true; and a concrete Authorize whose response header carries
type 3 (not authResponse) returns exactly the failed-authorization error
with a nil response and the client unchanged. -/
theorem C5_authorized_flag_witness :
    (NewClient "h" 1).authorized = false ∧
    (⟨"h", 1, true⟩ : Client).authorized = true ∧
    Authorize (NewClient "h" 1) [1, 0, 0, 0] (some 100) [97]
        (encHeader ⟨10, 1, 3⟩ ++ [0, 0]) =
      some (NewClient "h" 1,
        ⟨none, some RconError.failedAuthorization,
          (newPacket 1 auth [97]).compile, []⟩) := by
  have h := C5_authorized_flag "h" 1 (NewClient "h" 1) [1, 0, 0, 0] (some 100) [97]
    (encHeader ⟨10, 1, 2⟩ ++ [0, 0]) ⟨"h", 1, true⟩
    ⟨some ⟨⟨10, 1, 2⟩, []⟩, none, (newPacket 1 auth [97]).compile, []⟩
  have h3 := C5_authorized_flag "h" 1 (NewClient "h" 1) [1, 0, 0, 0] (some 100) [97]
    (encHeader ⟨10, 1, 3⟩ ++ [0, 0]) ⟨"h", 1, true⟩
    ⟨some ⟨⟨10, 1, 2⟩, []⟩, none, (newPacket 1 auth [97]).compile, []⟩
  refine ⟨h.1, ?_, ?_⟩
  · rcases h.2.2.1 (by decide) with ⟨_, hc2, _⟩ | ⟨⟨e, he⟩, _⟩
    · exact hc2
    · exact absurd he (by simp)
  · exact h3.2.2.2.1 ⟨some ⟨⟨10, 1, 3⟩, []⟩, none, (newPacket 1 auth [97]).compile, []⟩
      ⟨⟨10, 1, 3⟩, []⟩ (by decide) (by decide) (by decide)

/-- C6: a response header whose id differs from the request's challenge
makes send fail with the invalid-challenge error, returning no response
and consuming no body bytes (rest of the stream untouched) — when that
header is the first one of an exec request (even with type 0), when it is
the second one reached through the auth quirk, and when it answers an
auth request directly (its type not responseValue, so the quirk does not
fire). -/
theorem C6_invalid_challenge (a : Bool) (rb : List Nat) (m : Nat)
    (cmd : List Nat) (h : header) (x : Int) (junk t : List Nat)
    (hs : int32Range h.size) (hc : int32Range h.challenge)
    (ht : int32Range h.headerType) (hx : int32Range x)
    (hjr : int32Range ((junk.length : Int) + 8))
    (hm : cmd.length + 14 ≤ m)
    (hne : h.challenge ≠ readChallenge rb) :
    send true rb (some m) exec cmd (encHeader h ++ t) =
      some ⟨none, some .invalidChallenge,
        (newPacket (readChallenge rb) exec cmd).compile, t⟩ ∧
    send a rb (some m) auth cmd
        (encHeader ⟨(junk.length : Int) + 8, x, responseValue⟩ ++
          (junk ++ (encHeader h ++ t))) =
      some ⟨none, some .invalidChallenge,
        (newPacket (readChallenge rb) auth cmd).compile, t⟩ ∧
    (h.headerType ≠ responseValue →
      send a rb (some m) auth cmd (encHeader h ++ t) =
        some ⟨none, some .invalidChallenge,
          (newPacket (readChallenge rb) auth cmd).compile, t⟩) := by
  refine ⟨?_, ?_, ?_⟩
  · rw [send_write_ok _ _ _ _ _ _ (Or.inr rfl) hm]
    simp only [readHeader_encode_range h _ hs hc ht]
    rw [if_neg (fun hcon => absurd hcon.1 (by decide))]
    unfold sendFinish
    rw [if_pos (by rw [newPacket_challenge]; exact hne)]
  · rw [send_write_ok _ _ _ _ _ _ (Or.inl rfl) hm]
    simp only [readHeader_encode_range ⟨(junk.length : Int) + 8, x, responseValue⟩
      (junk ++ (encHeader h ++ t)) hjr hx
      (by show int32Range responseValue; decide)]
    rw [if_pos ⟨trivial, trivial⟩]
    rw [if_neg (not_lt.mpr (by simp only [packetHeaderSize]; omega))]
    have hk : (((junk.length : Int) + 8) - packetHeaderSize).toNat = junk.length := by
      simp only [packetHeaderSize]
      omega
    rw [hk, connRead_drop_exact junk (encHeader h ++ t)]
    simp only [readHeader_encode_range h _ hs hc ht]
    unfold sendFinish
    rw [if_pos (by rw [newPacket_challenge]; exact hne)]
  · intro hq
    rw [send_write_ok _ _ _ _ _ _ (Or.inl rfl) hm]
    simp only [readHeader_encode_range h _ hs hc ht]
    rw [if_neg (fun hcon => hq hcon.2)]
    unfold sendFinish
    rw [if_pos (by rw [newPacket_challenge]; exact hne)]

/-- C6 witness: challenge 1 was generated, the response carries id 2, and
send fails with the invalid-challenge error leaving the tail unread, in
the exec scenario (first header, type 0), the quirk scenario (second
header) and the direct auth scenario (first header, non-zero type). -/
theorem C6_invalid_challenge_witness :
    (send true [1, 0, 0, 0] (some 15) exec [97] (encHeader ⟨10, 2, 0⟩ ++ [3]) =
      some ⟨none, some .invalidChallenge,
        (newPacket (readChallenge [1, 0, 0, 0]) exec [97]).compile, [3]⟩ ∧
    send false [1, 0, 0, 0] (some 15) auth [97]
        (encHeader ⟨(([7] : List Nat).length : Int) + 8, 5, responseValue⟩ ++
          ([7] ++ (encHeader ⟨10, 2, 0⟩ ++ [3]))) =
      some ⟨none, some .invalidChallenge,
        (newPacket (readChallenge [1, 0, 0, 0]) auth [97]).compile, [3]⟩) ∧
    send false [1, 0, 0, 0] (some 15) auth [97] (encHeader ⟨10, 2, 3⟩ ++ [3]) =
      some ⟨none, some .invalidChallenge,
        (newPacket (readChallenge [1, 0, 0, 0]) auth [97]).compile, [3]⟩ := by
  have h1 := C6_invalid_challenge false [1, 0, 0, 0] 15 [97] ⟨10, 2, 0⟩ 5 [7] [3]
    (by decide) (by decide) (by decide) (by decide) (by decide) (by decide)
    (by decide)
  have h2 := C6_invalid_challenge false [1, 0, 0, 0] 15 [97] ⟨10, 2, 3⟩ 5 [7] [3]
    (by decide) (by decide) (by decide) (by decide) (by decide) (by decide)
    (by decide)
  exact ⟨⟨h1.1, h1.2.1⟩, h2.2.2 (by decide)⟩

/-- C8: every Authorize or Execute outcome is all-or-nothing: a nil error
comes with a full response, and a non-nil error comes with a nil
(discarded) response — never both. -/
theorem C8_all_or_nothing (c : Client) (rb : List Nat) (w : Option Nat)
    (cmd input : List Nat) (c2 : Client) (r : SendResult) :
    (Execute c rb w cmd input = some (c2, r) →
      (r.err = none ∧ ∃ p, r.response = some p) ∨
        (r.response = none ∧ ∃ e, r.err = some e)) ∧
    (Authorize c rb w cmd input = some (c2, r) →
      (r.err = none ∧ ∃ p, r.response = some p) ∨
        (r.response = none ∧ ∃ e, r.err = some e)) := by
  constructor
  · intro h
    unfold Execute at h
    cases hs : send c.authorized rb w exec cmd input with
    | none =>
      rw [hs] at h
      exact absurd h (by simp)
    | some r0 =>
      rw [hs] at h
      simp only [Option.map_some'] at h
      cases h
      exact send_some_cases _ _ _ _ _ _ _ hs
  · intro h
    rcases Authorize_cases c rb w cmd input c2 r h with ⟨he, _, p, hp, _⟩ | ⟨⟨e, he⟩, hp, _⟩
    · exact Or.inl ⟨he, p, hp⟩
    · exact Or.inr ⟨hp, e, he⟩

/-- C8 witness: the unauthorized-request outcome of a concrete Execute
carries an error and no response. -/
theorem C8_all_or_nothing_witness :
    ((⟨none, some RconError.unauthorizedRequest, [], ([3] : List Nat)⟩ : SendResult).err = none ∧
      ∃ p, (⟨none, some RconError.unauthorizedRequest, [], ([3] : List Nat)⟩ : SendResult).response = some p) ∨
    ((⟨none, some RconError.unauthorizedRequest, [], ([3] : List Nat)⟩ : SendResult).response = none ∧
      ∃ e, (⟨none, some RconError.unauthorizedRequest, [], ([3] : List Nat)⟩ : SendResult).err = some e) :=
  (C8_all_or_nothing ⟨"h", 1, false⟩ [] none [97] [3] ⟨"h", 1, false⟩
    ⟨none, some RconError.unauthorizedRequest, [], [3]⟩).1 (by decide)

/-- C9: the result of reading the random challenge is never checked: when
the random source yields fewer than four bytes, send behaves exactly as if
the source had produced the challenge 0 — no error is surfaced for the
failed read, and the request that is built and written is the compiled
packet with challenge id 0. -/
theorem C9_rand_error_ignored (a : Bool) (rb : List Nat) (w : Option Nat)
    (typ : Int) (cmd input : List Nat) (m : Nat) (r : SendResult)
    (hshort : rb.length < 4) :
    send a rb w typ cmd input = send a (List.replicate 4 0) w typ cmd input ∧
    (send a rb (some m) typ cmd input = some r → cmd.length + 14 ≤ m →
      (typ = auth ∨ a = true) → r.written = (newPacket 0 typ cmd).compile) := by
  have h0 : readChallenge rb = 0 := readChallenge_short rb hshort
  constructor
  · exact send_rand_congr a rb _ w typ cmd input (by rw [h0]; decide)
  · intro hr hm hga
    have hw := send_written a rb m typ cmd input r hga hm hr
    rw [h0] at hw
    exact hw

/-- C9 witness: a one-byte random source (failed challenge read) gives the
same run as the all-zero source, and the written request is the packet
compiled with challenge 0. -/
theorem C9_rand_error_ignored_witness :
    (send true [9] (some 15) exec [97] [] =
      send true (List.replicate 4 0) (some 15) exec [97] []) ∧
    (⟨none, some RconError.transport, (newPacket 0 exec [97]).compile,
        []⟩ : SendResult).written = (newPacket 0 exec [97]).compile := by
  have h := C9_rand_error_ignored true [9] (some 15) exec [97] [] 15
    ⟨none, some RconError.transport, (newPacket 0 exec [97]).compile, []⟩ (by decide)
  exact ⟨h.1, h.2 (by decide) (by decide) (Or.inr rfl)⟩

/-- C10: the discard of the spurious packet's size-8 body bytes checks
neither the returned error nor the byte count: when the stream cannot
supply those bytes (transport failure / short read*, modelled as stream
exhaustion), no error is surfaced at the discard step and send proceeds
directly to decode the next response header — the error that does come
back is that header read's failure, never an invalid-read error from the
discard. -/
theorem C10_discard_ignores_errors (a : Bool) (rb : List Nat) (m : Nat)
    (cmd : List Nat) (h1 : header) (s1 : List Nat)
    (hs : int32Range h1.size) (hc : int32Range h1.challenge)
    (hq : h1.headerType = responseValue)
    (hsz : packetHeaderSize ≤ h1.size)
    (hshort : s1.length < (h1.size - packetHeaderSize).toNat)
    (hm : cmd.length + 14 ≤ m) :
    send a rb (some m) auth cmd (encHeader h1 ++ s1) =
      some ⟨none, some .transport,
        (newPacket (readChallenge rb) auth cmd).compile, []⟩ := by
  have ht : int32Range h1.headerType := by
    rw [hq]
    decide
  rw [send_write_ok _ _ _ _ _ _ (Or.inl rfl) hm]
  simp only [readHeader_encode_range h1 _ hs hc ht]
  rw [if_pos ⟨trivial, hq⟩]
  rw [if_neg (not_lt.mpr hsz)]
  have hdrop : (connRead (h1.size - packetHeaderSize).toNat s1).2.2 = [] := by
    simp only [connRead]
    exact List.drop_eq_nil_of_le (by omega)
  rw [hdrop]
  rfl

/-- C10 witness: a spurious header announcing four body bytes over a
stream holding only two — the short discard surfaces nothing and the
reported failure is the second header read. -/
theorem C10_discard_ignores_errors_witness :
    send false [1, 0, 0, 0] (some 15) auth [97] (encHeader ⟨12, 5, 0⟩ ++ [1, 2]) =
      some ⟨none, some .transport,
        (newPacket (readChallenge [1, 0, 0, 0]) auth [97]).compile, []⟩ :=
  C10_discard_ignores_errors false [1, 0, 0, 0] 15 [97] ⟨12, 5, 0⟩ [1, 2]
    (by decide) (by decide) (by decide) (by decide) (by decide) (by decide)

end Rcon
